import Mathlib

/-!
Shallow embedding of the court-administration service
(`src/api/admin/court.rs` of MiniProgram-Backend) and proofs about it.

The store is modelled as an explicit state (`DB`) holding the `courts` and
`orders` tables plus the next store-assigned court id.  Each HTTP handler
(`add`, `del`, `all`, `update`) becomes a pure function from its request
data and the current state to `Except BaseError` of its result; the Rust
`?`-operator early return on error corresponds to the `Except.error`
branch, which carries no new state: a failed call leaves the store as the
caller had it.  Database I/O failures are not modelled inside the handlers;
the error-mapping closure the handlers install on every store call
(`map_err` at lines 46–50, 89–93, 105–109, 131–135, 166–170 of the source)
is embedded separately as `dbErrHandler`.
-/

namespace CourtAdmin

/-- Row of the `courts` table: the fields used by this module
(entity definitions live outside `src/`; the field list follows the
`CourtSchema` / `SaveCourt` shapes used in the handlers). -/
structure Court where
  court_id : Nat
  admin_id : Nat
  court_name : String
  location : String
  label : String
  price_per_hour : Int
deriving DecidableEq

/-- Row of the `orders` table, restricted to the two columns this module
reads: `CourtId` and `AptEnd` (the booking's end time, modelled as an
integer timestamp standing for the `NaiveDateTime`). -/
structure Order where
  court_id : Nat
  apt_end : Int
deriving DecidableEq

/-- Request body of `POST /add` (`AddCourt`). -/
structure AddCourt where
  court_name : String
  location : String
  label : String
  price_per_hour : Int
deriving DecidableEq

/-- Request body of `DELETE /del` (`DelCourt`). -/
structure DelCourt where
  court_id : Nat
deriving DecidableEq

/-- Request body of `POST /update` (`UpdateCourt`). -/
structure UpdateCourt where
  court_id : Nat
  court_name : String
  location : String
  label : String
  price_per_hour : Int
deriving DecidableEq

/-- Argument of `CourtOp::save`: `court_id = none` asks the store to
assign a fresh id (insert), `some id` addresses an existing row. -/
structure SaveCourt where
  court_id : Option Nat
  admin_id : Nat
  court_name : String
  location : String
  label : String
  price_per_hour : Int
deriving DecidableEq

/-- Response row of `GET /all` (`CourtSchema`). -/
structure CourtSchema where
  court_id : Option Nat
  admin_id : Nat
  court_name : String
  location : String
  label : String
  price_per_hour : Int
deriving DecidableEq

/-- The store state: both tables plus the next store-assigned court id. -/
structure DB where
  courts : List Court
  orders : List Order
  next_court_id : Nat
deriving DecidableEq

/-- `BaseError` (`utils::error`): the two variants this module constructs —
`ServerInnerErr` carrying only a correlation id (the `Uuid`, modelled as a
`Nat`), and `BadRequest` carrying a business code and message. -/
inductive BaseError where
  | ServerInnerErr (id : Nat)
  | BadRequest (code : Int) (msg : String)
deriving DecidableEq

/-- Success envelope of a handler: the `code` and `msg` fields of the JSON
object built by `json!` (the `data` payload is returned alongside). -/
structure Resp where
  code : Int
  msg : String
deriving DecidableEq

/-- The `map_err` closure every handler installs on a store call
(e.g. lines 46–50): generate a correlation id, log `"{id} >>>> {err}"`
server-side, and turn the data-layer error into `ServerInnerErr id`.
The first component is the log line, the second the error sent onward;
the fresh `Uuid::new_v4()` is the `id` argument. -/
def dbErrHandler (id : Nat) (err : String) : String × BaseError :=
  (toString id ++ " >>>> " ++ err, BaseError.ServerInnerErr id)

/-- Modelled from the spec: `CourtOp::save` (module `module::court`, whose
source is not under `src/`).  Spec §4.1: with no `court_id`, add "persists a
new Court row; store assigns court_id" and returns "the persisted Court,
echoed back"; with a `court_id`, update does a "full replace of mutable
fields (name, location, label, price); admin_id and court_id unchanged",
rows being keyed by `(admin_id, court_id)` as in the spec's delete scoping. -/
def CourtOp.save (s : SaveCourt) (db : DB) : DB × Court :=
  match s.court_id with
  | none =>
    let c : Court :=
      ⟨db.next_court_id, s.admin_id, s.court_name, s.location, s.label, s.price_per_hour⟩
    (⟨db.courts ++ [c], db.orders, db.next_court_id + 1⟩, c)
  | some cid =>
    let c : Court := ⟨cid, s.admin_id, s.court_name, s.location, s.label, s.price_per_hour⟩
    (⟨db.courts.map fun old =>
        if old.court_id = cid ∧ old.admin_id = s.admin_id then c else old,
      db.orders, db.next_court_id⟩, c)

/-- Handler of `POST /add` (lines 33–73): reject when a court with the same
`(CourtName, AdminId)` already exists (`球场名重复`), otherwise persist via
`CourtOp::save` with `court_id := none` and answer `code 0`. -/
def add (admin : Nat) (schema : AddCourt) (db : DB) :
    Except BaseError (DB × Court × Resp) :=
  match db.courts.find? fun c =>
      c.court_name == schema.court_name && c.admin_id == admin with
  | some _ => .error (.BadRequest (-1) "球场名重复")
  | none =>
    let r := CourtOp.save
      ⟨none, admin, schema.court_name, schema.location, schema.label,
        schema.price_per_hour⟩ db
    .ok (r.1, r.2, ⟨0, "球场添加成功"⟩)

/-- Modelled from the spec: the store's delete statement issued by `del`
(lines 98–104); its row filter is determined by the entity's key, whose
definition is not under `src/`.  Spec §4.1: "Deletion is scoped by
(admin_id, court_id) — cannot delete another admin's court."  Returns the
remaining rows and the number of rows affected. -/
def deleteScoped (admin cid : Nat) (courts : List Court) : List Court × Nat :=
  let remaining := courts.filter fun c => !(c.admin_id == admin && c.court_id == cid)
  (remaining, courts.length - remaining.length)

/-- Second stage of the delete handler (lines 98–120): issue the scoped
delete; zero rows affected answers `没有球场(id)`, otherwise `code 0`. -/
def delExec (admin : Nat) (schema : DelCourt) (db : DB) :
    Except BaseError (DB × Resp) :=
  let r := deleteScoped admin schema.court_id db.courts
  if r.2 = 0 then
    .error (.BadRequest (-1) ("没有球场(" ++ toString schema.court_id ++ ")"))
  else
    .ok (⟨r.1, db.orders, db.next_court_id⟩, ⟨0, "球场删除成功"⟩)

/-- Handler of `DELETE /del` (lines 75–121): first look for an order with
`CourtId = schema.court_id` and `AptEnd ≥ now` — if one exists, fail with
`球场仍有未完成的订单` — then run the ownership-scoped delete. -/
def del (admin : Nat) (schema : DelCourt) (now : Int) (db : DB) :
    Except BaseError (DB × Resp) :=
  match db.orders.find? fun o =>
      o.court_id == schema.court_id && decide (now ≤ o.apt_end) with
  | some _ => .error (.BadRequest (-1) "球场仍有未完成的订单")
  | none => delExec admin schema db

/-- The projection `all` applies to each found row (lines 137–144). -/
def schemaOf (admin : Nat) (e : Court) : CourtSchema :=
  ⟨some e.court_id, admin, e.court_name, e.location, e.label, e.price_per_hour⟩

/-- Handler of `GET /all` (lines 123–151): return every court whose
`AdminId` is the caller's, projected through `CourtSchema`, with `code 0`. -/
def all (admin : Nat) (db : DB) : Resp × List CourtSchema :=
  (⟨0, "查询成功"⟩,
    (db.courts.filter fun c => c.admin_id == admin).map (schemaOf admin))

/-- Handler of `POST /update` (lines 153–189): require an existing court
with `(CourtId, AdminId)` matching (`球场不存在` otherwise), then persist
via `CourtOp::save` with `court_id := some schema.court_id`. -/
def update (admin : Nat) (schema : UpdateCourt) (db : DB) :
    Except BaseError (DB × Court × Resp) :=
  match db.courts.find? fun c =>
      c.court_id == schema.court_id && c.admin_id == admin with
  | none => .error (.BadRequest (-1) "球场不存在")
  | some _ =>
    let r := CourtOp.save
      ⟨some schema.court_id, admin, schema.court_name, schema.location,
        schema.label, schema.price_per_hour⟩ db
    .ok (r.1, r.2, ⟨0, "操作成功"⟩)

/-- The spec's §3 invariant: the `(admin_id, court_name)` pair is unique
over the stored courts. -/
def NameKeyUnique (db : DB) : Prop :=
  db.courts.Pairwise fun a b => a.admin_id ≠ b.admin_id ∨ a.court_name ≠ b.court_name

/-- Store-key uniqueness: no two rows share `(admin_id, court_id)`
(court_id is store-assigned, spec §3: "unique identifier"). -/
def IdKeyUnique (db : DB) : Prop :=
  db.courts.Pairwise fun a b => a.admin_id ≠ b.admin_id ∨ a.court_id ≠ b.court_id

/-- Freshness of the store's id counter: every stored court's id is below
the next id the store will assign. -/
def FreshIds (db : DB) : Prop :=
  ∀ c ∈ db.courts, c.court_id < db.next_court_id

instance (db : DB) : Decidable (NameKeyUnique db) := by
  unfold NameKeyUnique; infer_instance

instance (db : DB) : Decidable (IdKeyUnique db) := by
  unfold IdKeyUnique; infer_instance

instance (db : DB) : Decidable (FreshIds db) := by
  unfold FreshIds; infer_instance

/-- Courts table after the keyed full replace `update` performs through
`CourtOp.save` (statement helper naming that table). -/
def replaceCourt (admin : Nat) (s : UpdateCourt) (l : List Court) : List Court :=
  l.map fun old =>
    if old.court_id = s.court_id ∧ old.admin_id = admin then
      ⟨s.court_id, admin, s.court_name, s.location, s.label, s.price_per_hour⟩
    else old

/-! Concrete states used by the witness and counterexample theorems. -/

/-- A two-court store owned by admin 1, names `x` and `y`, no orders. -/
def dbTwo : DB := ⟨[⟨1, 1, "x", "L", "T", 100⟩, ⟨2, 1, "y", "L", "T", 100⟩], [], 3⟩

/-- A store where admin 1 owns court 1 and an order on court 1 ends at 150. -/
def dbPend : DB := ⟨[⟨1, 1, "x", "L", "T", 100⟩], [⟨1, 150⟩], 2⟩

/-- The empty store. -/
def dbNil : DB := ⟨[], [], 1⟩

/-! Shared helper lemmas. -/

/-- A `find?` on the courts table with the duplicate-name predicate comes up
empty exactly when no stored court has the given `(name, admin)` pair. -/
theorem find_dup_none {admin : Nat} {name : String} {l : List Court}
    (h : ∀ c ∈ l, c.admin_id = admin → c.court_name ≠ name) :
    l.find? (fun c => c.court_name == name && c.admin_id == admin) = none := by
  refine List.find?_eq_none.mpr fun x hx => ?_
  simp only [Bool.and_eq_true, beq_iff_eq, not_and]
  exact fun hn ha => h x hx ha hn

/-- A `find?` on the courts table with the ownership predicate comes up
empty exactly when no stored court has the given `(court_id, admin)` pair. -/
theorem find_own_none {admin cid : Nat} {l : List Court}
    (h : ∀ c ∈ l, c.admin_id = admin → c.court_id ≠ cid) :
    l.find? (fun c => c.court_id == cid && c.admin_id == admin) = none := by
  refine List.find?_eq_none.mpr fun x hx => ?_
  simp only [Bool.and_eq_true, beq_iff_eq, not_and]
  exact fun hn ha => h x hx ha hn

/-- When a court of `admin` with the requested name exists, `add` answers
the duplicate-name business error. -/
theorem add_dup_err (admin : Nat) (s : AddCourt) (db : DB)
    (h : ∃ c ∈ db.courts, c.admin_id = admin ∧ c.court_name = s.court_name) :
    add admin s db = .error (.BadRequest (-1) "球场名重复") := by
  obtain ⟨c, hc, ha, hn⟩ := h
  rcases hf : db.courts.find?
      (fun c => c.court_name == s.court_name && c.admin_id == admin) with _ | w
  · exact absurd (List.find?_eq_none.mp hf c hc) (by simp [hn, ha])
  · simp [add, hf]

/-- When no court of `admin` carries the requested name, `add` succeeds and
appends the freshly numbered court. -/
theorem add_ok (admin : Nat) (s : AddCourt) (db : DB)
    (h : ∀ c ∈ db.courts, c.admin_id = admin → c.court_name ≠ s.court_name) :
    add admin s db =
      .ok (⟨db.courts ++
              [⟨db.next_court_id, admin, s.court_name, s.location, s.label,
                s.price_per_hour⟩],
            db.orders, db.next_court_id + 1⟩,
          ⟨db.next_court_id, admin, s.court_name, s.location, s.label,
            s.price_per_hour⟩,
          ⟨0, "球场添加成功"⟩) := by
  simp [add, find_dup_none h, CourtOp.save]

/-- When no court with the requested id belongs to `admin`, `update`
answers the not-found business error. -/
theorem update_notfound (admin : Nat) (s : UpdateCourt) (db : DB)
    (h : ∀ c ∈ db.courts, c.admin_id = admin → c.court_id ≠ s.court_id) :
    update admin s db = .error (.BadRequest (-1) "球场不存在") := by
  simp [update, find_own_none h]

/-- When a court with the requested id belongs to `admin`, `update`
succeeds and maps the keyed replacement over the courts table. -/
theorem update_ok (admin : Nat) (s : UpdateCourt) (db : DB)
    (h : ∃ c ∈ db.courts, c.court_id = s.court_id ∧ c.admin_id = admin) :
    update admin s db =
      .ok (⟨db.courts.map fun old =>
              if old.court_id = s.court_id ∧ old.admin_id = admin then
                ⟨s.court_id, admin, s.court_name, s.location, s.label,
                  s.price_per_hour⟩
              else old,
            db.orders, db.next_court_id⟩,
          ⟨s.court_id, admin, s.court_name, s.location, s.label,
            s.price_per_hour⟩,
          ⟨0, "操作成功"⟩) := by
  obtain ⟨c, hc, hid, ha⟩ := h
  rcases hf : db.courts.find?
      (fun c => c.court_id == s.court_id && c.admin_id == admin) with _ | w
  · exact absurd (List.find?_eq_none.mp hf c hc) (by simp [hid, ha])
  · simp [update, hf, CourtOp.save]

/-- When some order on the requested court ends at or after `now`, `del`
answers the pending-orders business error. -/
theorem del_pending_err (admin : Nat) (s : DelCourt) (now : Int) (db : DB)
    (h : ∃ o ∈ db.orders, o.court_id = s.court_id ∧ now ≤ o.apt_end) :
    del admin s now db = .error (.BadRequest (-1) "球场仍有未完成的订单") := by
  obtain ⟨o, ho, hc, he⟩ := h
  rcases hf : db.orders.find?
      (fun o => o.court_id == s.court_id && decide (now ≤ o.apt_end)) with _ | w
  · exact absurd (List.find?_eq_none.mp hf o ho) (by simp [hc, he])
  · simp [del, hf]

/-- When every order on the requested court ended strictly before `now`,
the pending-order check passes and `del` proceeds to the scoped delete. -/
theorem del_no_pending (admin : Nat) (s : DelCourt) (now : Int) (db : DB)
    (h : ∀ o ∈ db.orders, o.court_id = s.court_id → o.apt_end < now) :
    del admin s now db = delExec admin s db := by
  have hf : db.orders.find?
      (fun o => o.court_id == s.court_id && decide (now ≤ o.apt_end)) = none := by
    refine List.find?_eq_none.mpr fun o ho => ?_
    simp only [Bool.and_eq_true, beq_iff_eq, decide_eq_true_eq, not_and]
    exact fun hc hle => absurd (h o ho hc) (not_lt.mpr hle)
  simp [del, hf]

/-- When no court with the requested id belongs to `admin`, the scoped
delete touches zero rows and answers the not-found business error. -/
theorem delExec_notfound (admin : Nat) (s : DelCourt) (db : DB)
    (h : ∀ c ∈ db.courts, c.admin_id = admin → c.court_id ≠ s.court_id) :
    delExec admin s db =
      .error (.BadRequest (-1) ("没有球场(" ++ toString s.court_id ++ ")")) := by
  have hkeep : db.courts.filter
      (fun c => !(c.admin_id == admin && c.court_id == s.court_id)) = db.courts := by
    refine List.filter_eq_self.mpr fun c hc => ?_
    simp only [Bool.not_eq_true', Bool.and_eq_false_iff, beq_eq_false_iff_ne, ne_eq]
    by_cases ha : c.admin_id = admin
    · exact Or.inr (h c hc ha)
    · exact Or.inl ha
  unfold delExec deleteScoped
  rw [hkeep]
  simp

/-- When no court with the requested id belongs to `admin`, `del` can
never succeed: either the pending-order check fires or the scoped delete
touches zero rows. -/
theorem del_unowned_never_ok (admin : Nat) (s : DelCourt) (now : Int) (db : DB)
    (h : ∀ c ∈ db.courts, c.admin_id = admin → c.court_id ≠ s.court_id) :
    ∀ out, del admin s now db ≠ .ok out := by
  intro out hok
  rcases hf : db.orders.find?
      (fun o => o.court_id == s.court_id && decide (now ≤ o.apt_end)) with _ | w
  · simp only [del, hf] at hok
    rw [delExec_notfound admin s db h] at hok
    exact Except.noConfusion hok
  · simp only [del, hf] at hok
    exact Except.noConfusion hok

/-! Claim theorems. -/

/-- C1: for every admin and state, `add` fails with the duplicate-name
Conflict error when a court with the same `(admin_id, court_name)` already
exists; two adds of the same `court_name` under different `admin_id`s both
succeed. -/
theorem C1_add_duplicate_scoped_per_admin :
    (∀ (admin : Nat) (s : AddCourt) (db : DB),
        (∃ c ∈ db.courts, c.admin_id = admin ∧ c.court_name = s.court_name) →
        add admin s db = .error (.BadRequest (-1) "球场名重复"))
    ∧ (∀ (a1 a2 : Nat) (s1 s2 : AddCourt) (db : DB), a1 ≠ a2 →
        s1.court_name = s2.court_name →
        (∀ c ∈ db.courts, c.admin_id = a1 → c.court_name ≠ s1.court_name) →
        (∀ c ∈ db.courts, c.admin_id = a2 → c.court_name ≠ s2.court_name) →
        ∃ o1 o2, add a1 s1 db = .ok o1 ∧ add a2 s2 o1.1 = .ok o2) := by
  refine ⟨add_dup_err, fun a1 a2 s1 s2 db hne hnm h1 h2 => ?_⟩
  refine ⟨_, _, add_ok a1 s1 db h1, add_ok a2 s2 _ ?_⟩
  intro c hc ha
  simp only [List.mem_append, List.mem_singleton] at hc
  rcases hc with hc | rfl
  · exact h2 c hc ha
  · exact absurd ha hne

/-- Witness for C1: in `dbTwo`, admin 1 adding the name `x` again hits the
Conflict; on the empty store, admins 1 and 2 both add the name `z`. -/
theorem C1_witness :
    add 1 ⟨"x", "L", "T", 50⟩ dbTwo = .error (.BadRequest (-1) "球场名重复")
    ∧ ∃ o1 o2, add 1 ⟨"z", "L", "T", 50⟩ dbNil = .ok o1
        ∧ add 2 ⟨"z", "L", "T", 50⟩ o1.1 = .ok o2 :=
  ⟨C1_add_duplicate_scoped_per_admin.1 1 ⟨"x", "L", "T", 50⟩ dbTwo
      ⟨⟨1, 1, "x", "L", "T", 100⟩, by decide, rfl, rfl⟩,
    C1_add_duplicate_scoped_per_admin.2 1 2 ⟨"z", "L", "T", 50⟩
      ⟨"z", "L", "T", 50⟩ dbNil (by decide) rfl (by decide) (by decide)⟩

/-- C10: `add` is atomic on business failure: with a duplicate
`(admin_id, court_name)` in the store, it returns the duplicate-name error
from the pre-check, before reaching `CourtOp.save`; the `Except.error`
return carries no successor state, so the store is unchanged. -/
theorem C10_add_atomic_on_duplicate (admin : Nat) (s : AddCourt) (db : DB)
    (hdup : ∃ c ∈ db.courts, c.admin_id = admin ∧ c.court_name = s.court_name) :
    add admin s db = .error (.BadRequest (-1) "球场名重复") :=
  add_dup_err admin s db hdup

/-- Witness for C10: admin 1 re-adding the name `y` over `dbTwo`. -/
theorem C10_witness :
    add 1 ⟨"y", "M", "U", 80⟩ dbTwo = .error (.BadRequest (-1) "球场名重复") :=
  C10_add_atomic_on_duplicate 1 ⟨"y", "M", "U", 80⟩ dbTwo
    ⟨⟨2, 1, "y", "L", "T", 100⟩, by decide, rfl, rfl⟩

/-- C5: `update` fails with the not-found error whenever no court with the
requested id exists under the calling admin (also when the court belongs
to a different admin); the error return precedes `CourtOp.save`, so the
store is not mutated. -/
theorem C5_update_notfound_scoped (admin : Nat) (s : UpdateCourt) (db : DB)
    (h : ∀ c ∈ db.courts, c.admin_id = admin → c.court_id ≠ s.court_id) :
    update admin s db = .error (.BadRequest (-1) "球场不存在") :=
  update_notfound admin s db h

/-- Witness for C5: admin 2 updating court 1, which admin 1 owns. -/
theorem C5_witness :
    update 2 ⟨1, "z", "L", "T", 150⟩ dbTwo = .error (.BadRequest (-1) "球场不存在") :=
  C5_update_notfound_scoped 2 ⟨1, "z", "L", "T", 150⟩ dbTwo (by decide)

/-- C4: with an order on the target court whose end time is at or after
`now`, `del` fails with the pending-orders Conflict (the error return
removes no row); with every such order ending strictly before `now`, the
pending-order check passes and `del` proceeds to the scoped delete stage. -/
theorem C4_delete_pending_guard (admin : Nat) (s : DelCourt) (now : Int) (db : DB) :
    ((∃ o ∈ db.orders, o.court_id = s.court_id ∧ now ≤ o.apt_end) →
        del admin s now db = .error (.BadRequest (-1) "球场仍有未完成的订单"))
    ∧ ((∀ o ∈ db.orders, o.court_id = s.court_id → o.apt_end < now) →
        del admin s now db = delExec admin s db) :=
  ⟨del_pending_err admin s now db, del_no_pending admin s now db⟩

/-- Witness for C4 on `dbPend` (order on court 1 ends at 150): at time 100
the delete conflicts; at time 200 the check passes. -/
theorem C4_witness :
    del 1 ⟨1⟩ 100 dbPend = .error (.BadRequest (-1) "球场仍有未完成的订单")
    ∧ del 1 ⟨1⟩ 200 dbPend = delExec 1 ⟨1⟩ dbPend :=
  ⟨(C4_delete_pending_guard 1 ⟨1⟩ 100 dbPend).1 ⟨⟨1, 150⟩, by decide, rfl, by decide⟩,
    (C4_delete_pending_guard 1 ⟨1⟩ 200 dbPend).2 (by decide)⟩

/-- C9: the pending-order check runs before the scoped delete and filters
only by `court_id`: an order with end time at or after `now` makes `del`
answer the pending-orders Conflict for every caller, with no assumption
that the caller owns the court or that the court exists at all. -/
theorem C9_pending_check_ignores_caller (a1 a2 cid : Nat) (now : Int) (db : DB)
    (h : ∃ o ∈ db.orders, o.court_id = cid ∧ now ≤ o.apt_end) :
    del a1 ⟨cid⟩ now db = .error (.BadRequest (-1) "球场仍有未完成的订单")
    ∧ del a1 ⟨cid⟩ now db = del a2 ⟨cid⟩ now db := by
  have h1 := del_pending_err a1 ⟨cid⟩ now db h
  have h2 := del_pending_err a2 ⟨cid⟩ now db h
  exact ⟨h1, h1.trans h2.symm⟩

/-- Witness for C9: the store holds no court 7 at all, only an order on
court id 7; callers 2 and 9 both get the Conflict. -/
theorem C9_witness :
    del 2 ⟨7⟩ 100 (⟨[], [⟨7, 150⟩], 1⟩ : DB)
        = .error (.BadRequest (-1) "球场仍有未完成的订单")
    ∧ del 2 ⟨7⟩ 100 (⟨[], [⟨7, 150⟩], 1⟩ : DB)
        = del 9 ⟨7⟩ 100 (⟨[], [⟨7, 150⟩], 1⟩ : DB) :=
  C9_pending_check_ignores_caller 2 9 7 100 ⟨[], [⟨7, 150⟩], 1⟩
    ⟨⟨7, 150⟩, by decide, rfl, by decide⟩

/-- C3 as stated fails on the code: in `dbPend`, admin 2 owns nothing, yet
deleting court 1 (which has a pending order) answers the pending-orders
Conflict, not the not-found error the claim requires. -/
theorem C3_counterexample :
    (∀ c ∈ dbPend.courts, ¬(c.admin_id = 2 ∧ c.court_id = 1))
    ∧ del 2 ⟨1⟩ 100 dbPend = .error (.BadRequest (-1) "球场仍有未完成的订单")
    ∧ del 2 ⟨1⟩ 100 dbPend
        ≠ .error (.BadRequest (-1) ("没有球场(" ++ toString 1 ++ ")")) := by
  have hrun : del 2 ⟨1⟩ 100 dbPend
      = .error (.BadRequest (-1) "球场仍有未完成的订单") := rfl
  refine ⟨by decide, hrun, fun hc => ?_⟩
  rw [hrun] at hc
  injection hc with h
  exact absurd h (by decide)

/-- C3 amended: a delete scoped to a court the caller does not own never
succeeds; it fails with the not-found error provided no order on that
court id is still pending (a pending order makes the earlier Conflict
check fire instead). -/
theorem C3_amended_delete_scoped (admin cid : Nat) (now : Int) (db : DB)
    (hown : ∀ c ∈ db.courts, c.admin_id = admin → c.court_id ≠ cid) :
    (∀ out, del admin ⟨cid⟩ now db ≠ .ok out)
    ∧ ((∀ o ∈ db.orders, o.court_id = cid → o.apt_end < now) →
        del admin ⟨cid⟩ now db =
          .error (.BadRequest (-1) ("没有球场(" ++ toString cid ++ ")"))) := by
  refine ⟨del_unowned_never_ok admin ⟨cid⟩ now db hown, fun hp => ?_⟩
  rw [del_no_pending admin ⟨cid⟩ now db hp, delExec_notfound admin ⟨cid⟩ db hown]

/-- Witness for the amended C3: at time 200 the order of `dbPend` has
ended; admin 2 deleting admin 1's court 1 gets the not-found error, and in
particular not the successful-deletion response. -/
theorem C3_witness :
    del 2 ⟨1⟩ 200 dbPend = .error (.BadRequest (-1) ("没有球场(" ++ toString 1 ++ ")"))
    ∧ del 2 ⟨1⟩ 200 dbPend ≠ .ok (dbNil, ⟨0, "球场删除成功"⟩) :=
  ⟨(C3_amended_delete_scoped 2 1 200 dbPend (by decide)).2 (by decide),
    (C3_amended_delete_scoped 2 1 200 dbPend (by decide)).1 (dbNil, ⟨0, "球场删除成功"⟩)⟩

/-- C6: for an existing court of the caller, a successful `update` returns
the court rebuilt from the request's mutable fields (name, location,
label, price) with `admin_id` and `court_id` unchanged, stores exactly the
keyed replacement (every row of another key survives as it was, the table
keeps its length, orders untouched), and echoes the updated court. -/
theorem C6_update_replaces_mutable_fields (admin : Nat) (s : UpdateCourt) (db : DB)
    (hmem : ∃ c ∈ db.courts, c.court_id = s.court_id ∧ c.admin_id = admin) :
    update admin s db =
      .ok (⟨replaceCourt admin s db.courts, db.orders, db.next_court_id⟩,
          ⟨s.court_id, admin, s.court_name, s.location, s.label, s.price_per_hour⟩,
          ⟨0, "操作成功"⟩)
    ∧ (⟨s.court_id, admin, s.court_name, s.location, s.label, s.price_per_hour⟩ : Court)
        ∈ replaceCourt admin s db.courts
    ∧ (∀ old ∈ db.courts, (old.court_id ≠ s.court_id ∨ old.admin_id ≠ admin) →
        old ∈ replaceCourt admin s db.courts)
    ∧ (replaceCourt admin s db.courts).length = db.courts.length := by
  obtain ⟨c, hc, hid, ha⟩ := hmem
  refine ⟨update_ok admin s db ⟨c, hc, hid, ha⟩, ?_, ?_, by simp [replaceCourt]⟩
  · exact List.mem_map.mpr ⟨c, hc, by simp [replaceCourt, hid, ha]⟩
  · intro old hold hne
    refine List.mem_map.mpr ⟨old, hold, ?_⟩
    rcases hne with h | h
    · simp [replaceCourt, h]
    · simp [replaceCourt, h]

/-- Witness for C6: admin 1 updates court 2 of `dbTwo` to new name,
location, label and price 150; the response echoes the rebuilt court and
the new row is stored. -/
theorem C6_witness :
    update 1 ⟨2, "z", "M", "U", 150⟩ dbTwo =
      .ok (⟨replaceCourt 1 ⟨2, "z", "M", "U", 150⟩ dbTwo.courts, dbTwo.orders,
            dbTwo.next_court_id⟩,
          ⟨2, 1, "z", "M", "U", 150⟩, ⟨0, "操作成功"⟩)
    ∧ (⟨2, 1, "z", "M", "U", 150⟩ : Court)
        ∈ replaceCourt 1 ⟨2, "z", "M", "U", 150⟩ dbTwo.courts :=
  ⟨(C6_update_replaces_mutable_fields 1 ⟨2, "z", "M", "U", 150⟩ dbTwo
      ⟨⟨2, 1, "y", "L", "T", 100⟩, by decide, rfl, rfl⟩).1,
    (C6_update_replaces_mutable_fields 1 ⟨2, "z", "M", "U", 150⟩ dbTwo
      ⟨⟨2, 1, "y", "L", "T", 100⟩, by decide, rfl, rfl⟩).2.1⟩

/-- C7: `all` returns exactly the caller's courts — a schema row is listed
iff it projects a stored court of the caller, with no further filtering —
and after a successful `add` over a store with fresh ids the added court
is listed exactly once. -/
theorem C7_list_owned_exactly :
    (∀ (admin : Nat) (db : DB) (s : CourtSchema),
        s ∈ (all admin db).2 ↔ ∃ c ∈ db.courts, c.admin_id = admin ∧ s = schemaOf admin c)
    ∧ (∀ (admin : Nat) (sc : AddCourt) (db : DB) (o : DB × Court × Resp),
        FreshIds db → add admin sc db = .ok o →
        ((all admin o.1).2.countP fun s => s.court_id == some o.2.1.court_id) = 1) := by
  constructor
  · intro admin db s
    simp only [all, List.mem_map, List.mem_filter, beq_iff_eq]
    constructor
    · rintro ⟨c, ⟨hc, ha⟩, rfl⟩; exact ⟨c, hc, ha, rfl⟩
    · rintro ⟨c, hc, ha, rfl⟩; exact ⟨c, ⟨hc, ha⟩, rfl⟩
  · intro admin sc db o hfresh hok
    rcases hf : db.courts.find?
        (fun c => c.court_name == sc.court_name && c.admin_id == admin) with _ | w
    · simp only [add, hf, CourtOp.save] at hok
      cases hok
      simp only [all, List.filter_append, List.map_append, List.countP_append]
      have h0 : ((db.courts.filter fun c => c.admin_id == admin).map
            (schemaOf admin)).countP
              (fun s => s.court_id == some db.next_court_id) = 0 := by
        rw [List.countP_map]
        refine List.countP_eq_zero.mpr fun a ha => ?_
        have := hfresh a (List.mem_filter.mp ha).1
        simp only [Function.comp_apply, schemaOf, Option.some.injEq, beq_iff_eq]
        omega
      rw [h0]
      simp [schemaOf]
    · simp only [add, hf] at hok
      exact absurd hok (by simp)

/-- Witness for C7: admin 1 adds court `z` to the empty store; listing
admin 1's courts counts the fresh court id exactly once. -/
theorem C7_witness :
    ((all 1 (⟨[⟨1, 1, "z", "L", "T", 50⟩], [], 2⟩ : DB)).2.countP
        fun s => s.court_id == some 1) = 1 :=
  C7_list_owned_exactly.2 1 ⟨"z", "L", "T", 50⟩ dbNil
    (⟨[⟨1, 1, "z", "L", "T", 50⟩], [], 2⟩, ⟨1, 1, "z", "L", "T", 50⟩,
      ⟨0, "球场添加成功"⟩)
    (by decide) rfl

/-- C2 as stated fails on the code: `update` checks existence but not name
uniqueness, so from `dbTwo` (names `x`, `y` unique) renaming court 2 to
`x` succeeds and leaves admin 1 with two courts named `x`. -/
theorem C2_counterexample :
    NameKeyUnique dbTwo
    ∧ update 1 ⟨2, "x", "L", "T", 100⟩ dbTwo
        = .ok (⟨[⟨1, 1, "x", "L", "T", 100⟩, ⟨2, 1, "x", "L", "T", 100⟩], [], 3⟩,
            ⟨2, 1, "x", "L", "T", 100⟩, ⟨0, "操作成功"⟩)
    ∧ ¬ NameKeyUnique
        (⟨[⟨1, 1, "x", "L", "T", 100⟩, ⟨2, 1, "x", "L", "T", 100⟩], [], 3⟩ : DB) :=
  ⟨by decide, rfl, by decide⟩

/-- C2 amended: `add` and `del` preserve the `(admin_id, court_name)`
uniqueness invariant from any state (`all` reads without mutating); a
successful `update` preserves it provided the requested name does not
already belong to a different court of the same admin, the store keys
`(admin_id, court_id)` being unique. -/
theorem C2_amended_invariant_preservation :
    (∀ (admin : Nat) (s : AddCourt) (db : DB) (o : DB × Court × Resp),
        NameKeyUnique db → add admin s db = .ok o → NameKeyUnique o.1)
    ∧ (∀ (admin : Nat) (s : DelCourt) (now : Int) (db : DB) (o : DB × Resp),
        NameKeyUnique db → del admin s now db = .ok o → NameKeyUnique o.1)
    ∧ (∀ (admin : Nat) (s : UpdateCourt) (db : DB) (o : DB × Court × Resp),
        NameKeyUnique db → IdKeyUnique db →
        (∀ c ∈ db.courts, c.admin_id = admin → c.court_name = s.court_name →
            c.court_id = s.court_id) →
        update admin s db = .ok o → NameKeyUnique o.1) := by
  refine ⟨?_, ?_, ?_⟩
  · intro admin s db o hu hok
    rcases hf : db.courts.find?
        (fun c => c.court_name == s.court_name && c.admin_id == admin) with _ | w
    · simp only [add, hf, CourtOp.save] at hok
      cases hok
      unfold NameKeyUnique at hu ⊢
      rw [List.pairwise_append]
      refine ⟨hu, List.pairwise_singleton .., ?_⟩
      intro a hax b hb
      simp only [List.mem_singleton] at hb
      subst hb
      have hnd := List.find?_eq_none.mp hf a hax
      simp only [Bool.and_eq_true, beq_iff_eq, not_and] at hnd
      by_cases hn : a.court_name = s.court_name
      · exact Or.inl fun hadm => hnd hn hadm
      · exact Or.inr hn
    · simp only [add, hf] at hok
      exact absurd hok (by simp)
  · intro admin s now db o hu hok
    rcases hf : db.orders.find?
        (fun or => or.court_id == s.court_id && decide (now ≤ or.apt_end)) with _ | w
    · simp only [del, hf, delExec] at hok
      split at hok
      · exact absurd hok (by simp)
      · cases hok
        unfold NameKeyUnique at hu ⊢
        exact List.Pairwise.sublist (List.filter_sublist _) hu
    · simp only [del, hf] at hok
      exact absurd hok (by simp)
  · intro admin s db o hu hid hno hok
    rcases hf : db.courts.find?
        (fun c => c.court_id == s.court_id && c.admin_id == admin) with _ | w
    · simp only [update, hf] at hok
      exact absurd hok (by simp)
    · simp only [update, hf, CourtOp.save] at hok
      cases hok
      unfold NameKeyUnique at hu ⊢
      unfold IdKeyUnique at hid
      rw [List.pairwise_map]
      refine List.Pairwise.imp_of_mem ?_ (hu.and hid)
      intro a b hma hmb hab
      by_cases ka : a.court_id = s.court_id ∧ a.admin_id = admin
      · by_cases kb : b.court_id = s.court_id ∧ b.admin_id = admin
        · exfalso
          rcases hab.2 with h | h
          · exact h (ka.2.trans kb.2.symm)
          · exact h (ka.1.trans kb.1.symm)
        · rw [if_pos ka, if_neg kb]
          by_contra hcon
          push_neg at hcon
          exact kb ⟨hno b hmb hcon.1.symm hcon.2.symm, hcon.1.symm⟩
      · by_cases kb : b.court_id = s.court_id ∧ b.admin_id = admin
        · rw [if_neg ka, if_pos kb]
          by_contra hcon
          push_neg at hcon
          exact ka ⟨hno a hma hcon.1 hcon.2, hcon.1⟩
        · rw [if_neg ka, if_neg kb]
          exact hab.1

/-- Witness for the amended C2: adding `z` to the empty store keeps the
invariant, and renaming court 2 of `dbTwo` to the fresh name `w` keeps it
as well. -/
theorem C2_witness :
    NameKeyUnique (⟨[⟨1, 1, "z", "L", "T", 50⟩], [], 2⟩ : DB)
    ∧ NameKeyUnique
        (⟨[⟨1, 1, "x", "L", "T", 100⟩, ⟨2, 1, "w", "L", "T", 100⟩], [], 3⟩ : DB) :=
  ⟨C2_amended_invariant_preservation.1 1 ⟨"z", "L", "T", 50⟩ dbNil
      (⟨[⟨1, 1, "z", "L", "T", 50⟩], [], 2⟩, ⟨1, 1, "z", "L", "T", 50⟩,
        ⟨0, "球场添加成功"⟩) (by decide) rfl,
    C2_amended_invariant_preservation.2.2 1 ⟨2, "w", "L", "T", 100⟩ dbTwo
      (⟨[⟨1, 1, "x", "L", "T", 100⟩, ⟨2, 1, "w", "L", "T", 100⟩], [], 3⟩,
        ⟨2, 1, "w", "L", "T", 100⟩, ⟨0, "操作成功"⟩)
      (by decide) (by decide) (by decide) rfl⟩

/-- C8: the data-layer error path logs the full error (the log line joins
the fresh correlation id and the error text) and forwards only
`ServerInnerErr id`, independent of the error's content; every handler's
success envelope carries code 0, and every business error a negative
code. -/
theorem C8_error_discipline :
    (∀ (id : Nat) (e : String),
        dbErrHandler id e = (toString id ++ " >>>> " ++ e, .ServerInnerErr id))
    ∧ (∀ (id : Nat) (e1 e2 : String), (dbErrHandler id e1).2 = (dbErrHandler id e2).2)
    ∧ (∀ (admin : Nat) (s : AddCourt) (db : DB) (o : DB × Court × Resp),
        add admin s db = .ok o → o.2.2.code = 0)
    ∧ (∀ (admin : Nat) (s : DelCourt) (now : Int) (db : DB) (o : DB × Resp),
        del admin s now db = .ok o → o.2.code = 0)
    ∧ (∀ (admin : Nat) (db : DB), (all admin db).1.code = 0)
    ∧ (∀ (admin : Nat) (s : UpdateCourt) (db : DB) (o : DB × Court × Resp),
        update admin s db = .ok o → o.2.2.code = 0)
    ∧ (∀ (admin : Nat) (s : AddCourt) (db : DB) (e : BaseError),
        add admin s db = .error e → ∃ code m, e = .BadRequest code m ∧ code < 0)
    ∧ (∀ (admin : Nat) (s : DelCourt) (now : Int) (db : DB) (e : BaseError),
        del admin s now db = .error e → ∃ code m, e = .BadRequest code m ∧ code < 0)
    ∧ (∀ (admin : Nat) (s : UpdateCourt) (db : DB) (e : BaseError),
        update admin s db = .error e → ∃ code m, e = .BadRequest code m ∧ code < 0) := by
  refine ⟨fun id e => rfl, fun id e1 e2 => rfl, ?_, ?_, fun admin db => rfl, ?_, ?_, ?_, ?_⟩
  · intro admin s db o hok
    rcases hf : db.courts.find?
        (fun c => c.court_name == s.court_name && c.admin_id == admin) with _ | w
    · simp only [add, hf, CourtOp.save] at hok
      cases hok; rfl
    · simp only [add, hf] at hok
      exact absurd hok (by simp)
  · intro admin s now db o hok
    rcases hf : db.orders.find?
        (fun or => or.court_id == s.court_id && decide (now ≤ or.apt_end)) with _ | w
    · simp only [del, hf, delExec] at hok
      split at hok
      · exact absurd hok (by simp)
      · cases hok; rfl
    · simp only [del, hf] at hok
      exact absurd hok (by simp)
  · intro admin s db o hok
    rcases hf : db.courts.find?
        (fun c => c.court_id == s.court_id && c.admin_id == admin) with _ | w
    · simp only [update, hf] at hok
      exact absurd hok (by simp)
    · simp only [update, hf, CourtOp.save] at hok
      cases hok; rfl
  · intro admin s db e herr
    rcases hf : db.courts.find?
        (fun c => c.court_name == s.court_name && c.admin_id == admin) with _ | w
    · simp only [add, hf, CourtOp.save] at herr
      exact absurd herr (by simp)
    · simp only [add, hf] at herr
      cases herr
      exact ⟨-1, _, rfl, by norm_num⟩
  · intro admin s now db e herr
    rcases hf : db.orders.find?
        (fun or => or.court_id == s.court_id && decide (now ≤ or.apt_end)) with _ | w
    · simp only [del, hf, delExec] at herr
      split at herr
      · cases herr
        exact ⟨-1, _, rfl, by norm_num⟩
      · exact absurd herr (by simp)
    · simp only [del, hf] at herr
      cases herr
      exact ⟨-1, _, rfl, by norm_num⟩
  · intro admin s db e herr
    rcases hf : db.courts.find?
        (fun c => c.court_id == s.court_id && c.admin_id == admin) with _ | w
    · simp only [update, hf] at herr
      cases herr
      exact ⟨-1, _, rfl, by norm_num⟩
    · simp only [update, hf, CourtOp.save] at herr
      exact absurd herr (by simp)

/-- Witness for C8: the error-path closure at id 5 and error text `boom`,
a concrete successful add, and a concrete business error. -/
theorem C8_witness :
    dbErrHandler 5 "boom" = ("5 >>>> boom", .ServerInnerErr 5)
    ∧ ((⟨[⟨1, 1, "z", "L", "T", 50⟩], [], 2⟩, ⟨1, 1, "z", "L", "T", 50⟩,
          ⟨0, "球场添加成功"⟩) : DB × Court × Resp).2.2.code = 0
    ∧ ∃ code m, (BaseError.BadRequest (-1) "球场名重复" : BaseError)
          = .BadRequest code m ∧ code < 0 :=
  ⟨C8_error_discipline.1 5 "boom",
    C8_error_discipline.2.2.1 1 ⟨"z", "L", "T", 50⟩ dbNil
      (⟨[⟨1, 1, "z", "L", "T", 50⟩], [], 2⟩, ⟨1, 1, "z", "L", "T", 50⟩,
        ⟨0, "球场添加成功"⟩) rfl,
    C8_error_discipline.2.2.2.2.2.2.1 1 ⟨"x", "L", "T", 50⟩ dbTwo
      (.BadRequest (-1) "球场名重复") (add_dup_err 1 ⟨"x", "L", "T", 50⟩ dbTwo
        ⟨⟨1, 1, "x", "L", "T", 100⟩, by decide, rfl, rfl⟩)⟩

end CourtAdmin
